import Mathlib

/-!
# Verification of the concurrent link-validation engine

Shallow embedding of `DocUtils` from
`src/.docker-compose/mcp/python_utils/services/doc_utils_service.py`
(data model from `src/.docker-compose/mcp/python_utils/models/link_models.py`),
together with theorems settling the specification claims about it.

The HTTP transport (the `requests` session) is modelled as a function from a
URL to either a status code or a raised exception carrying its message; the
whole engine is deterministic relative to that transport.  Python's substring
operator `needle in hay` is modelled by an executable character-list scan.
-/

/-- Tests whether the char list `h` starts with `n`
(helper for the substring test). -/
def leadsWith : List Char → List Char → Bool
  | [], _ => true
  | _ :: _, [] => false
  | a :: as, b :: bs => a == b && leadsWith as bs

/-- Tests whether `needle` occurs as a contiguous sublist of the second list;
this is Python's `n in h` on strings, viewed as char lists. -/
def hasSubList (needle : List Char) : List Char → Bool
  | [] => needle.isEmpty
  | b :: bs => leadsWith needle (b :: bs) || hasSubList needle bs

/-- Python's `needle in hay` for strings. -/
def strContains (hay needle : String) : Bool :=
  hasSubList needle.data hay.data

/-- Answer of one HTTP call: a response status, or a raised exception text. -/
inductive HttpAns where
  | ok (status : Nat)
  | exn (msg : String)
deriving DecidableEq, Repr

/-- The `requests` session, restricted to the two calls the engine makes:
`session.head(url, timeout=10, allow_redirects=True)` and the same for `get`.
Deterministic per URL, which models a fixed (mocked/stubbed) network. -/
structure Transport where
  head : String → HttpAns
  get : String → HttpAns

/-- The `LinkResult` dataclass (url, is_valid, status_code, error_message).
The `response_time` float field carries wall-clock time only and no claim
depends on it, so it is not modelled. -/
structure LinkResult where
  url : String
  is_valid : Bool
  status_code : Option Nat := none
  error_message : Option String := none
deriving DecidableEq, Repr

/-- The hard-coded skip substrings of lines 145-148 and 341-344. -/
def skip_domains : List String := ["localhost", "127.0.0.1", "0.0.0.0"]

/-- The check `any(skip_domain in url for skip_domain in [...])` of lines
145-148 and 341-344. -/
def shouldSkip (url : String) : Bool :=
  skip_domains.any (fun d => strContains url d)

/-- Body of the `try:` block of `_check_single_link` (lines 144-174):
skip check, session-availability check, HEAD probe with GET reissue on 405.
A raised transport exception is the `Except.error` case. -/
def checkBody (session : Option Transport) (url : String) :
    Except String LinkResult :=
  if shouldSkip url then
    .ok { url := url, is_valid := true, error_message := some "skipped" }
  else
    match session with
    | none =>
      .ok { url := url, is_valid := false,
            error_message := some "requests not available" }
    | some t =>
      match t.head url with
      | .exn m => .error m
      | .ok s =>
        match (if s == 405 then t.get url else .ok s) with
        | .exn m => .error m
        | .ok sf =>
          .ok { url := url, is_valid := decide (sf < 400),
                status_code := some sf }

/-- Function `_check_single_link`: the `try` body with its exception handler
(lines 176-182), which converts any raised exception into a `LinkResult`. -/
def check_single_link (session : Option Transport) (url : String) :
    LinkResult :=
  match checkBody session url with
  | .ok r => r
  | .error m => { url := url, is_valid := false, error_message := some m }

/-- The three output buckets (`results` dict of lines 96 and 328). -/
structure Buckets where
  valid : List String
  broken : List String
  skipped : List String
deriving DecidableEq, Repr

def emptyBuckets : Buckets := ⟨[], [], []⟩

/-- Line 133: `f" (status: {result.status_code})" if result.status_code else ""`
(Python truthiness: `None` and `0` both give the empty suffix). -/
def statusTag (sc : Option Nat) : String :=
  match sc with
  | some c => if c ≠ 0 then " (status: " ++ toString c ++ ")" else ""
  | none => ""

/-- Line 127: `result.error_message and "skipped" in result.error_message`. -/
def errorHasSkipped (em : Option String) : Bool :=
  match em with
  | some m => strContains m "skipped"
  | none => false

/-- One iteration of the `for future in as_completed(futures)` loop
(lines 125-135). -/
def bucketResult (b : Buckets) (r : LinkResult) : Buckets :=
  if errorHasSkipped r.error_message then
    { b with skipped := b.skipped ++ [r.url] }
  else if r.is_valid then
    { b with valid := b.valid ++ [r.url] }
  else
    { b with broken := b.broken ++ [r.url ++ statusTag r.status_code] }

/-- The full aggregation loop over a stream of probe results. -/
def aggregate (rs : List LinkResult) : Buckets :=
  rs.foldl bucketResult emptyBuckets

/-- Function `check_links_concurrent`, parametrised by the extracted link list
(`all_links` is a Python `set`, modelled by `List.dedup`; lines 98-123 build
it from the markdown files, lines 120-135 probe each distinct URL once and
bucket the results). -/
def check_links_concurrent (session : Option Transport)
    (links : List String) : Buckets :=
  aggregate ((links.dedup).map (check_single_link session))

/-- The inner coroutine `check_single_url` (lines 338-364): skip check, HEAD
with GET reissue on 405, returning `(url, is_valid, reason)`; its
`except Exception` clause turns a raised exception into `(url, False, str(e))`.
Total on its input, so the `BaseException` branch of the gather loop
(lines 370-372) is unreachable in this model. -/
def check_single_url (t : Transport) (url : String) :
    String × Bool × String :=
  if shouldSkip url then (url, true, "skipped")
  else
    match t.head url with
    | .exn m => (url, false, m)
    | .ok s =>
      match (if s == 405 then t.get url else .ok s) with
      | .exn m => (url, false, m)
      | .ok sf => (url, decide (sf < 400), "status: " ++ toString sf)

/-- One iteration of the `for result in completed_results` loop
(lines 369-380). -/
def asyncBucket (b : Buckets) (r : String × Bool × String) : Buckets :=
  if strContains r.2.2 "skipped" then
    { b with skipped := b.skipped ++ [r.1] }
  else if r.2.1 then
    { b with valid := b.valid ++ [r.1] }
  else
    { b with broken := b.broken ++ [r.1 ++ " (" ++ r.2.2 ++ ")"] }

/-- Function `async_check_links` (lines 325-382): on a missing session every URL
is reported broken with the `" (requests not available)"` suffix (lines
330-332); otherwise one task per input-list entry (no deduplication, line
366), gathered in task order and bucketed. -/
def async_check_links (session : Option Transport) (urls : List String) :
    Buckets :=
  match session with
  | none =>
    { valid := [],
      broken := urls.map (fun u => u ++ " (requests not available)"),
      skipped := [] }
  | some t => (urls.map (check_single_url t)).foldl asyncBucket emptyBuckets

/-- Which of the three buckets a result falls into. -/
inductive Bucket where
  | valid
  | broken
  | skipped
deriving DecidableEq, Repr

/-- Classification performed by the loop of lines 125-135. -/
def classifyResult (r : LinkResult) : Bucket :=
  if errorHasSkipped r.error_message then .skipped
  else if r.is_valid then .valid
  else .broken

/-- Classification performed by the loop of lines 369-380. -/
def classifyAsync (r : String × Bool × String) : Bucket :=
  if strContains r.2.2 "skipped" then .skipped
  else if r.2.1 then .valid
  else .broken

/-- The bucket a given URL is assigned by the worker-pool strategy. -/
def bucketOfUrl (session : Option Transport) (u : String) : Bucket :=
  classifyResult (check_single_link session u)

/-- A transport whose every call raises `ConnectionError("connection refused")`. -/
def errTransport : Transport :=
  ⟨fun _ => .exn "connection refused", fun _ => .exn "connection refused"⟩

/-- A transport whose every call raises an exception whose text merely
contains the word "skipped". -/
def skippyTransport : Transport :=
  ⟨fun _ => .exn "host skipped by policy", fun _ => .exn "host skipped by policy"⟩

/-- URLs the worker-pool loop sends to `valid`, in stream order. -/
def validOf (rs : List LinkResult) : List String :=
  (rs.filter (fun r => classifyResult r == Bucket.valid)).map (fun r => r.url)

/-- Strings the worker-pool loop sends to `broken`, in stream order. -/
def brokenOf (rs : List LinkResult) : List String :=
  (rs.filter (fun r => classifyResult r == Bucket.broken)).map
    (fun r => r.url ++ statusTag r.status_code)

/-- URLs the worker-pool loop sends to `skipped`, in stream order. -/
def skippedOf (rs : List LinkResult) : List String :=
  (rs.filter (fun r => classifyResult r == Bucket.skipped)).map (fun r => r.url)

/-- The analogous stream projections for the async loop. -/
def avalidOf (xs : List (String × Bool × String)) : List String :=
  (xs.filter (fun x => classifyAsync x == Bucket.valid)).map (fun x => x.1)

def abrokenOf (xs : List (String × Bool × String)) : List String :=
  (xs.filter (fun x => classifyAsync x == Bucket.broken)).map
    (fun x => x.1 ++ " (" ++ x.2.2 ++ ")")

def askippedOf (xs : List (String × Bool × String)) : List String :=
  (xs.filter (fun x => classifyAsync x == Bucket.skipped)).map (fun x => x.1)

/-- The pure probing portion of `_check_single_link` (lines 164-182): HEAD,
GET reissue on 405, exception handler converting a raised exception. -/
def probeViaHttp (t : Transport) (url : String) : LinkResult :=
  match t.head url with
  | .exn m => { url := url, is_valid := false, error_message := some m }
  | .ok s =>
    match (if s == 405 then t.get url else .ok s) with
    | .exn m => { url := url, is_valid := false, error_message := some m }
    | .ok sf =>
      { url := url, is_valid := decide (sf < 400), status_code := some sf }

/-- The probing portion of the async coroutine (lines 348-364). -/
def probeViaHttpAsync (t : Transport) (url : String) : String × Bool × String :=
  match t.head url with
  | .exn m => (url, false, m)
  | .ok s =>
    match (if s == 405 then t.get url else .ok s) with
    | .exn m => (url, false, m)
    | .ok sf => (url, decide (sf < 400), "status: " ++ toString sf)

/-- Modelled from the spec: `CircuitBreakerState` of §3 for the missing
`LinkCheckerService` — "`consecutiveFailureCount: int`, starts at 0.
`isOpen: bool`, starts false. `failureThreshold: int`, constant (5)". -/
structure BreakerState where
  consecutiveFailureCount : Nat
  isOpen : Bool
deriving DecidableEq, Repr

def initialBreaker : BreakerState := ⟨0, false⟩

def failureThreshold : Nat := 5

/-- Modelled from the spec (§4.2): "`recordFailure()`: increments the
consecutive-failure counter; if it reaches `failureThreshold`, sets
`isOpen = true`. Not reset by this call." -/
def recordFailure (b : BreakerState) : BreakerState :=
  { consecutiveFailureCount := b.consecutiveFailureCount + 1,
    isOpen := b.isOpen
      || decide (failureThreshold ≤ b.consecutiveFailureCount + 1) }

/-- Modelled from the spec (§4.2): "`recordSuccess()`: resets the
consecutive-failure counter to 0. Does not clear `isOpen` once set." -/
def recordSuccess (b : BreakerState) : BreakerState :=
  { b with consecutiveFailureCount := 0 }

/-- Modelled from the spec (§4.3): the per-call state machine of the missing
`LinkCheckerService._check_single_link` — SkipCheck, then BreakerCheck
(returning `{isValid: false, errorMessage: "circuit breaker open"}` when
open), then the HEAD/GET probe, feeding the breaker on transport exceptions
and on successful responses. -/
def probeWithBreaker (t : Transport) (b : BreakerState) (url : String) :
    BreakerState × LinkResult :=
  if shouldSkip url then
    (b, { url := url, is_valid := true, error_message := some "skipped" })
  else if b.isOpen then
    (b, { url := url, is_valid := false,
          error_message := some "circuit breaker open" })
  else
    match t.head url with
    | .exn m =>
      (recordFailure b,
        { url := url, is_valid := false, error_message := some m })
    | .ok s =>
      match (if s == 405 then t.get url else .ok s) with
      | .exn m =>
        (recordFailure b,
          { url := url, is_valid := false, error_message := some m })
      | .ok sf =>
        (recordSuccess b,
          { url := url, is_valid := decide (sf < 400),
            status_code := some sf })

/-- Runs `n` consecutive probes of the same URL from a fresh breaker. -/
def runProbes (t : Transport) (url : String) : Nat → BreakerState
  | 0 => initialBreaker
  | n + 1 => (probeWithBreaker t (runProbes t url n) url).1

/-- Transport answering 200 to HEAD whose GET raises: a GET would be
observable, so it witnesses that no GET is issued on a non-405 HEAD. -/
def headOkTransport : Transport :=
  ⟨fun _ => .ok 200, fun _ => .exn "get issued"⟩

/-- Transport answering 405 to HEAD and 200 to GET. -/
def back405Transport : Transport :=
  ⟨fun _ => .ok 405, fun _ => .ok 200⟩

/-- Transport with the same HEAD behaviour as `headOkTransport` but a
different GET behaviour. -/
def headOkTransport2 : Transport :=
  ⟨fun _ => .ok 200, fun _ => .ok 500⟩

/-- Scheduler state of the cooperative/async strategy: available semaphore
permits, tasks not yet entered, probes in flight, finished tasks. -/
structure SemState where
  permits : Nat
  pending : Nat
  inflight : Nat
  finished : Nat
deriving DecidableEq, Repr

/-- One scheduler event of the async strategy: a pending task acquires a
permit and starts its probe, or an in-flight probe completes and releases
its permit. -/
inductive SemStep : SemState → SemState → Prop where
  | acquire (s : SemState) (hp : 0 < s.pending) (hs : 0 < s.permits) :
      SemStep s ⟨s.permits - 1, s.pending - 1, s.inflight + 1, s.finished⟩
  | release (s : SemState) (h : 0 < s.inflight) :
      SemStep s ⟨s.permits + 1, s.pending, s.inflight - 1, s.finished + 1⟩

/-- Initial async scheduler state: `N` permits, `M` URLs pending. -/
def semInit (N M : Nat) : SemState := ⟨N, M, 0, 0⟩

/-- Scheduler state of the worker-pool strategy: idle workers, tasks not yet
picked up, probes running on a worker, finished tasks. -/
structure PoolState where
  idleWorkers : Nat
  pending : Nat
  running : Nat
  finished : Nat
deriving DecidableEq, Repr

/-- One scheduler event of the worker-pool strategy: an idle worker picks up
a pending task, or a running probe finishes and frees its worker. -/
inductive PoolStep : PoolState → PoolState → Prop where
  | start (p : PoolState) (hp : 0 < p.pending) (hw : 0 < p.idleWorkers) :
      PoolStep p ⟨p.idleWorkers - 1, p.pending - 1, p.running + 1, p.finished⟩
  | finish (p : PoolState) (h : 0 < p.running) :
      PoolStep p ⟨p.idleWorkers + 1, p.pending, p.running - 1, p.finished + 1⟩

/-- Initial pool state: `N` idle workers, `M` URLs pending. -/
def poolInit (N M : Nat) : PoolState := ⟨N, M, 0, 0⟩

theorem leadsWith_iff (n h : List Char) :
    leadsWith n h = true ↔ ∃ t, h = n ++ t := by
  induction n generalizing h with
  | nil => simp [leadsWith]
  | cons a as ih =>
    cases h with
    | nil => simp [leadsWith]
    | cons b bs =>
      simp only [leadsWith, Bool.and_eq_true, beq_iff_eq, ih, List.cons_append,
        List.cons.injEq]
      constructor
      · rintro ⟨rfl, t, rfl⟩; exact ⟨t, rfl, rfl⟩
      · rintro ⟨t, rfl, rfl⟩; exact ⟨rfl, t, rfl⟩

theorem hasSubList_iff (n h : List Char) :
    hasSubList n h = true ↔ ∃ p t, h = p ++ n ++ t := by
  induction h with
  | nil =>
    simp only [hasSubList, List.isEmpty_iff]
    constructor
    · rintro rfl; exact ⟨[], [], rfl⟩
    · rintro ⟨p, t, hpt⟩
      rcases List.append_eq_nil.mp (List.append_eq_nil.mp hpt.symm).1 with ⟨-, h2⟩
      exact h2
  | cons b bs ih =>
    simp only [hasSubList, Bool.or_eq_true, leadsWith_iff, ih]
    constructor
    · rintro (⟨t, ht⟩ | ⟨p, t, ht⟩)
      · exact ⟨[], t, by simp [ht]⟩
      · exact ⟨b :: p, t, by simp [ht]⟩
    · rintro ⟨p, t, hpt⟩
      cases p with
      | nil => exact Or.inl ⟨t, by simpa using hpt⟩
      | cons c cs =>
        refine Or.inr ⟨cs, t, ?_⟩
        rw [List.cons_append, List.cons_append] at hpt
        injection hpt

theorem strContains_iff (hay needle : String) :
    strContains hay needle = true ↔ ∃ p t, hay.data = p ++ needle.data ++ t :=
  hasSubList_iff _ _

theorem foldl_bucketResult_eq (rs : List LinkResult) (b : Buckets) :
    rs.foldl bucketResult b
      = ⟨b.valid ++ validOf rs, b.broken ++ brokenOf rs,
         b.skipped ++ skippedOf rs⟩ := by
  induction rs generalizing b with
  | nil => simp [validOf, brokenOf, skippedOf]
  | cons r rs ih =>
    rw [List.foldl_cons, ih]
    by_cases h1 : errorHasSkipped r.error_message = true
    · simp [bucketResult, classifyResult, validOf, brokenOf, skippedOf, h1,
        List.filter_cons]
    · by_cases h2 : r.is_valid = true
      · simp [bucketResult, classifyResult, validOf, brokenOf, skippedOf,
          h1, h2, List.filter_cons]
      · simp [bucketResult, classifyResult, validOf, brokenOf, skippedOf,
          h1, h2, List.filter_cons]

theorem aggregate_eq (rs : List LinkResult) :
    aggregate rs = ⟨validOf rs, brokenOf rs, skippedOf rs⟩ := by
  simpa [aggregate, emptyBuckets] using foldl_bucketResult_eq rs emptyBuckets

theorem three_way_filter_length {α : Type} (f : α → Bucket) (l : List α) :
    (l.filter (fun a => f a == Bucket.valid)).length
      + (l.filter (fun a => f a == Bucket.broken)).length
      + (l.filter (fun a => f a == Bucket.skipped)).length = l.length := by
  induction l with
  | nil => rfl
  | cons a l ih =>
    rw [List.filter_cons, List.filter_cons, List.filter_cons]
    rcases h : f a with _ | _ | _ <;> simp [h] <;> omega

theorem lengths_of_aggregate (rs : List LinkResult) :
    (validOf rs).length + (brokenOf rs).length + (skippedOf rs).length
      = rs.length := by
  simpa [validOf, brokenOf, skippedOf] using
    three_way_filter_length classifyResult rs

theorem foldl_asyncBucket_eq (xs : List (String × Bool × String)) (b : Buckets) :
    xs.foldl asyncBucket b
      = ⟨b.valid ++ avalidOf xs, b.broken ++ abrokenOf xs,
         b.skipped ++ askippedOf xs⟩ := by
  induction xs generalizing b with
  | nil => simp [avalidOf, abrokenOf, askippedOf]
  | cons x xs ih =>
    rw [List.foldl_cons, ih]
    by_cases h1 : strContains x.2.2 "skipped" = true
    · simp [asyncBucket, classifyAsync, avalidOf, abrokenOf, askippedOf, h1,
        List.filter_cons]
    · by_cases h2 : x.2.1 = true
      · simp [asyncBucket, classifyAsync, avalidOf, abrokenOf, askippedOf,
          h1, h2, List.filter_cons]
      · simp [asyncBucket, classifyAsync, avalidOf, abrokenOf, askippedOf,
          h1, h2, List.filter_cons]

theorem async_aggregate_eq (xs : List (String × Bool × String)) :
    xs.foldl asyncBucket emptyBuckets
      = ⟨avalidOf xs, abrokenOf xs, askippedOf xs⟩ := by
  simpa [emptyBuckets] using foldl_asyncBucket_eq xs emptyBuckets

theorem lengths_of_async_aggregate (xs : List (String × Bool × String)) :
    (avalidOf xs).length + (abrokenOf xs).length + (askippedOf xs).length
      = xs.length := by
  simpa [avalidOf, abrokenOf, askippedOf] using
    three_way_filter_length classifyAsync xs

theorem check_single_link_url (s : Option Transport) (u : String) :
    (check_single_link s u).url = u := by
  unfold check_single_link checkBody
  by_cases hs : shouldSkip u = true
  · simp [hs]
  · simp only [hs, if_false]
    cases s with
    | none => rfl
    | some t =>
      cases h1 : t.head u with
      | exn m => simp [h1]
      | ok st =>
        simp only [h1]
        cases h2 : (if st == 405 then t.get u else HttpAns.ok st) with
        | exn m => simp [h2]
        | ok sf => simp [h2]

theorem check_single_url_fst (t : Transport) (u : String) :
    (check_single_url t u).1 = u := by
  unfold check_single_url
  by_cases hs : shouldSkip u = true
  · simp [hs]
  · simp only [hs, if_false]
    cases h1 : t.head u with
    | exn m => simp [h1]
    | ok st =>
      simp only [h1]
      cases h2 : (if st == 405 then t.get u else HttpAns.ok st) with
      | exn m => simp [h2]
      | ok sf => simp [h2]

theorem mem_validOf_map (s : Option Transport) (urls : List String)
    (u : String) :
    u ∈ validOf (urls.map (check_single_link s))
      ↔ u ∈ urls ∧ bucketOfUrl s u = Bucket.valid := by
  unfold validOf bucketOfUrl
  simp only [List.mem_map, List.mem_filter, beq_iff_eq]
  constructor
  · rintro ⟨r, ⟨hr, hcl⟩, rfl⟩
    rcases hr with ⟨v, hv, rfl⟩
    rw [check_single_link_url]
    exact ⟨hv, hcl⟩
  · rintro ⟨hu, hcl⟩
    exact ⟨check_single_link s u, ⟨⟨u, hu, rfl⟩, hcl⟩, check_single_link_url s u⟩

theorem mem_skippedOf_map (s : Option Transport) (urls : List String)
    (u : String) :
    u ∈ skippedOf (urls.map (check_single_link s))
      ↔ u ∈ urls ∧ bucketOfUrl s u = Bucket.skipped := by
  unfold skippedOf bucketOfUrl
  simp only [List.mem_map, List.mem_filter, beq_iff_eq]
  constructor
  · rintro ⟨r, ⟨hr, hcl⟩, rfl⟩
    rcases hr with ⟨v, hv, rfl⟩
    rw [check_single_link_url]
    exact ⟨hv, hcl⟩
  · rintro ⟨hu, hcl⟩
    exact ⟨check_single_link s u, ⟨⟨u, hu, rfl⟩, hcl⟩, check_single_link_url s u⟩

theorem brokenOf_map (s : Option Transport) (urls : List String) :
    brokenOf (urls.map (check_single_link s))
      = (urls.filter (fun u => bucketOfUrl s u == Bucket.broken)).map
          (fun u => u ++ statusTag (check_single_link s u).status_code) := by
  unfold brokenOf bucketOfUrl
  rw [List.filter_map, List.map_map]
  refine List.map_congr_left ?_
  intro u _
  simp [check_single_link_url]

theorem digitChar_isDigit : ∀ m < 10, (Nat.digitChar m).isDigit = true := by
  decide

theorem toDigitsCore_mem_digit (f : Nat) :
    ∀ (n : Nat) (ds : List Char), (∀ c ∈ ds, c.isDigit = true) →
      ∀ c ∈ Nat.toDigitsCore 10 f n ds, c.isDigit = true := by
  induction f with
  | zero =>
    intro n ds hds c hc
    simp only [Nat.toDigitsCore] at hc
    exact hds c hc
  | succ f ih =>
    intro n ds hds c hc
    have hcons : ∀ c ∈ Nat.digitChar (n % 10) :: ds, c.isDigit = true := by
      intro c' hc'
      rcases List.mem_cons.mp hc' with rfl | h'
      · exact digitChar_isDigit _ (Nat.mod_lt n (by omega))
      · exact hds c' h'
    simp only [Nat.toDigitsCore] at hc
    by_cases h : n / 10 = 0
    · rw [if_pos h] at hc
      exact hcons c hc
    · rw [if_neg h] at hc
      exact ih (n / 10) (Nat.digitChar (n % 10) :: ds) hcons c hc

theorem repr_data_digits (n : Nat) : ∀ c ∈ (Nat.repr n).data, c.isDigit = true := by
  intro c hc
  exact toDigitsCore_mem_digit (n + 1) n [] (by intro c' h'; cases h') c hc

theorem statusReason_no_skipped (n : Nat) :
    strContains ("status: " ++ toString n) "skipped" = false := by
  by_contra hcon
  have h' : strContains ("status: " ++ toString n) "skipped" = true := by
    revert hcon
    cases strContains ("status: " ++ toString n) "skipped" <;> simp
  rcases (strContains_iff _ _).mp h' with ⟨p, t, hpt⟩
  have hk : 'k' ∈ ("status: " ++ toString n).data := by
    rw [hpt]
    refine List.mem_append.mpr (Or.inl (List.mem_append.mpr (Or.inr ?_)))
    decide
  rw [String.data_append] at hk
  rcases List.mem_append.mp hk with h1 | h2
  · exact absurd h1 (by decide)
  · have := repr_data_digits n 'k' h2
    simp at this

theorem classifyResult_eq_skipped (r : LinkResult) :
    classifyResult r = Bucket.skipped ↔ errorHasSkipped r.error_message = true := by
  unfold classifyResult
  by_cases h1 : errorHasSkipped r.error_message = true
  · simp [h1]
  · by_cases h2 : r.is_valid = true <;> simp [h1, h2]

theorem classifyResult_eq_valid (r : LinkResult) :
    classifyResult r = Bucket.valid
      ↔ (errorHasSkipped r.error_message = false ∧ r.is_valid = true) := by
  unfold classifyResult
  by_cases h1 : errorHasSkipped r.error_message = true
  · simp [h1]
  · by_cases h2 : r.is_valid = true <;> simp [h1, h2]

/-- C1 counterexample: the async strategy does not deduplicate its input, so
on the input `["http://localhost:9999/x", "http://localhost:9999/x"]` (one
distinct URL, twice) it buckets the URL twice and the three bucket sizes sum
to 2, not to the deduplicated count 1 — refuting the claimed partition
invariant "for every run, regardless of execution strategy". -/
theorem partition_invariant_counterexample :
    (async_check_links (some errTransport)
        ["http://localhost:9999/x", "http://localhost:9999/x"]).skipped
      = ["http://localhost:9999/x", "http://localhost:9999/x"]
    ∧ ["http://localhost:9999/x", "http://localhost:9999/x"].dedup
      = ["http://localhost:9999/x"]
    ∧ ¬ ((async_check_links (some errTransport)
          ["http://localhost:9999/x", "http://localhost:9999/x"]).valid.length
        + (async_check_links (some errTransport)
          ["http://localhost:9999/x", "http://localhost:9999/x"]).broken.length
        + (async_check_links (some errTransport)
          ["http://localhost:9999/x", "http://localhost:9999/x"]).skipped.length
      = ["http://localhost:9999/x", "http://localhost:9999/x"].dedup.length) := by
  decide

/-- C1 (amended): the worker-pool strategy satisfies the partition invariant:
its three bucket sizes sum to the number of distinct input URLs, each distinct
URL is assigned exactly one bucket (membership in `valid`/`skipped` is
equivalent to its probe result classifying there, and those two buckets are
disjoint), and `broken` holds exactly the broken-classified URLs with their
status suffix.  The async strategy satisfies the counting invariant only for
duplicate-free inputs: it buckets once per input-list entry, so for a
`Nodup` input the sizes sum to the deduplicated count. -/
theorem partition_invariant (s : Option Transport) (links urls : List String)
    (hnd : urls.Nodup) :
    ((check_links_concurrent s links).valid.length
        + (check_links_concurrent s links).broken.length
        + (check_links_concurrent s links).skipped.length
      = links.dedup.length)
    ∧ (∀ u ∈ links.dedup,
        (u ∈ (check_links_concurrent s links).valid
          ↔ bucketOfUrl s u = Bucket.valid)
        ∧ (u ∈ (check_links_concurrent s links).skipped
          ↔ bucketOfUrl s u = Bucket.skipped))
    ∧ (∀ u, ¬ (u ∈ (check_links_concurrent s links).valid
        ∧ u ∈ (check_links_concurrent s links).skipped))
    ∧ ((check_links_concurrent s links).broken
        = (links.dedup.filter (fun u => bucketOfUrl s u == Bucket.broken)).map
            (fun u => u ++ statusTag (check_single_link s u).status_code))
    ∧ ((async_check_links s urls).valid.length
        + (async_check_links s urls).broken.length
        + (async_check_links s urls).skipped.length
      = urls.dedup.length) := by
  have hded : urls.dedup = urls := List.dedup_eq_self.mpr hnd
  refine ⟨?_, ?_, ?_, ?_, ?_⟩
  · unfold check_links_concurrent
    rw [aggregate_eq]
    simpa using lengths_of_aggregate ((links.dedup).map (check_single_link s))
  · intro u hu
    unfold check_links_concurrent
    rw [aggregate_eq]
    constructor
    · simpa [mem_validOf_map s links.dedup u] using fun _ => hu
    · simpa [mem_skippedOf_map s links.dedup u] using fun _ => hu
  · intro u ⟨h1, h2⟩
    unfold check_links_concurrent at h1 h2
    rw [aggregate_eq] at h1 h2
    have hv := (mem_validOf_map s links.dedup u).mp h1
    have hs := (mem_skippedOf_map s links.dedup u).mp h2
    rw [hv.2] at hs
    exact absurd hs.2 (by decide)
  · unfold check_links_concurrent
    rw [aggregate_eq]
    exact brokenOf_map s links.dedup
  · rw [hded]
    cases s with
    | none => simp [async_check_links]
    | some t =>
      simp only [async_check_links]
      rw [async_aggregate_eq]
      simpa using lengths_of_async_aggregate (urls.map (check_single_url t))

/-- C1 witness: the amended partition invariant at a concrete run. -/
theorem partition_invariant_witness :
    ((check_links_concurrent (some errTransport)
        ["https://a.example/x", "https://a.example/x", "http://localhost:1"]).valid.length
      + (check_links_concurrent (some errTransport)
        ["https://a.example/x", "https://a.example/x", "http://localhost:1"]).broken.length
      + (check_links_concurrent (some errTransport)
        ["https://a.example/x", "https://a.example/x", "http://localhost:1"]).skipped.length
      = ["https://a.example/x", "https://a.example/x", "http://localhost:1"].dedup.length)
    ∧ (∀ u ∈ ["https://a.example/x", "https://a.example/x", "http://localhost:1"].dedup,
        (u ∈ (check_links_concurrent (some errTransport)
            ["https://a.example/x", "https://a.example/x", "http://localhost:1"]).valid
          ↔ bucketOfUrl (some errTransport) u = Bucket.valid)
        ∧ (u ∈ (check_links_concurrent (some errTransport)
            ["https://a.example/x", "https://a.example/x", "http://localhost:1"]).skipped
          ↔ bucketOfUrl (some errTransport) u = Bucket.skipped))
    ∧ (∀ u, ¬ (u ∈ (check_links_concurrent (some errTransport)
          ["https://a.example/x", "https://a.example/x", "http://localhost:1"]).valid
        ∧ u ∈ (check_links_concurrent (some errTransport)
          ["https://a.example/x", "https://a.example/x", "http://localhost:1"]).skipped))
    ∧ ((check_links_concurrent (some errTransport)
          ["https://a.example/x", "https://a.example/x", "http://localhost:1"]).broken
        = ((["https://a.example/x", "https://a.example/x", "http://localhost:1"].dedup).filter
              (fun u => bucketOfUrl (some errTransport) u == Bucket.broken)).map
            (fun u => u ++ statusTag (check_single_link (some errTransport) u).status_code))
    ∧ ((async_check_links (some errTransport) ["https://b.example/y", "http://localhost:2"]).valid.length
        + (async_check_links (some errTransport) ["https://b.example/y", "http://localhost:2"]).broken.length
        + (async_check_links (some errTransport) ["https://b.example/y", "http://localhost:2"]).skipped.length
      = ["https://b.example/y", "http://localhost:2"].dedup.length) :=
  partition_invariant (some errTransport)
    ["https://a.example/x", "https://a.example/x", "http://localhost:1"]
    ["https://b.example/y", "http://localhost:2"] (by decide)

/-- C2: the single-probe function is total: it always returns a `LinkResult`
for its URL, and any exception raised inside the probe body (modelled as the
`Except.error` outcome of the `try` block) is converted by the
`except Exception` handler into a `LinkResult` carrying the exception text —
never propagated to the caller. -/
theorem probe_exception_to_data (s : Option Transport) (url m : String) :
    (check_single_link s url).url = url
    ∧ (checkBody s url = Except.error m →
        check_single_link s url
          = { url := url, is_valid := false, error_message := some m }) := by
  refine ⟨check_single_link_url s url, ?_⟩
  intro h
  unfold check_single_link
  rw [h]

/-- C2 witness: a transport whose HEAD raises yields a `LinkResult` carrying
the raised text. -/
theorem probe_exception_to_data_witness :
    (check_single_link (some errTransport) "https://example.com/a").url
        = "https://example.com/a"
    ∧ check_single_link (some errTransport) "https://example.com/a"
        = { url := "https://example.com/a", is_valid := false,
            error_message := some "connection refused" } :=
  ⟨(probe_exception_to_data (some errTransport) "https://example.com/a"
      "connection refused").1,
   (probe_exception_to_data (some errTransport) "https://example.com/a"
      "connection refused").2 rfl⟩

/-- C3 counterexample: a probe outcome whose error message is
`"host skipped by policy"` — not the exact string `"skipped"` — is placed in
the `skipped` bucket by both aggregation loops, because the code tests
substring containment (`"skipped" in result.error_message`), not equality. -/
theorem bucket_rule_counterexample :
    (check_single_link (some skippyTransport) "https://example.com/a").error_message
        = some "host skipped by policy"
    ∧ some "host skipped by policy" ≠ some "skipped"
    ∧ (check_links_concurrent (some skippyTransport) ["https://example.com/a"]).skipped
        = ["https://example.com/a"]
    ∧ (async_check_links (some skippyTransport) ["https://example.com/a"]).skipped
        = ["https://example.com/a"] := by
  refine ⟨rfl, by decide, rfl, rfl⟩

/-- C3 (amended): the aggregator buckets by substring containment, not
equality: a URL goes to `skipped` iff its outcome's error message *contains*
`"skipped"`; otherwise to `valid` iff `is_valid`; otherwise to `broken`,
where the worker-pool loop stores the URL suffixed with
`" (status: <code>)"` exactly when a (non-zero) status code is known, and the
async loop stores the URL suffixed with `" (<reason>)"` for whatever reason
string the task returned (a status text or a raw exception text). -/
theorem bucket_rule (rs : List LinkResult) (xs : List (String × Bool × String))
    (u : String) :
    (u ∈ (aggregate rs).skipped
      ↔ ∃ r ∈ rs, r.url = u ∧ errorHasSkipped r.error_message = true)
    ∧ ((aggregate rs).broken
        = (rs.filter (fun r => classifyResult r == Bucket.broken)).map
            (fun r => r.url ++ statusTag r.status_code))
    ∧ (∀ c : Nat, c ≠ 0 → statusTag (some c) = " (status: " ++ toString c ++ ")")
    ∧ statusTag none = ""
    ∧ ((xs.foldl asyncBucket emptyBuckets).broken
        = (xs.filter (fun x => classifyAsync x == Bucket.broken)).map
            (fun x => x.1 ++ " (" ++ x.2.2 ++ ")")) := by
  refine ⟨?_, ?_, ?_, rfl, ?_⟩
  · rw [aggregate_eq]
    unfold skippedOf
    simp only [List.mem_map, List.mem_filter, beq_iff_eq]
    constructor
    · rintro ⟨r, ⟨hr, hcl⟩, rfl⟩
      exact ⟨r, hr, rfl, (classifyResult_eq_skipped r).mp hcl⟩
    · rintro ⟨r, hr, rfl, hsk⟩
      exact ⟨r, ⟨hr, (classifyResult_eq_skipped r).mpr hsk⟩, rfl⟩
  · rw [aggregate_eq]
    rfl
  · intro c hc
    simp [statusTag, hc]
  · rw [async_aggregate_eq]
    rfl

/-- C3 witness: the amended bucketing rule at a concrete stream. -/
theorem bucket_rule_witness :
    ("https://example.com/a"
        ∈ (aggregate [{ url := "https://example.com/a", is_valid := false,
                        error_message := some "host skipped by policy" }]).skipped
      ↔ ∃ r ∈ [({ url := "https://example.com/a", is_valid := false,
                  error_message := some "host skipped by policy" } : LinkResult)],
            r.url = "https://example.com/a"
            ∧ errorHasSkipped r.error_message = true)
    ∧ ((aggregate [{ url := "https://example.com/a", is_valid := false,
                     error_message := some "host skipped by policy" }]).broken
        = (([({ url := "https://example.com/a", is_valid := false,
                error_message := some "host skipped by policy" } : LinkResult)]).filter
              (fun r => classifyResult r == Bucket.broken)).map
            (fun r => r.url ++ statusTag r.status_code))
    ∧ (∀ c : Nat, c ≠ 0 → statusTag (some c) = " (status: " ++ toString c ++ ")")
    ∧ statusTag none = ""
    ∧ (([((("https://b.example/y" : String), (false : Bool),
            ("boom" : String)))].foldl asyncBucket emptyBuckets).broken
        = ([((("https://b.example/y" : String), (false : Bool),
            ("boom" : String)))].filter
              (fun x => classifyAsync x == Bucket.broken)).map
            (fun x => x.1 ++ " (" ++ x.2.2 ++ ")")) :=
  bucket_rule
    [{ url := "https://example.com/a", is_valid := false,
       error_message := some "host skipped by policy" }]
    [("https://b.example/y", false, "boom")] "https://example.com/a"

/-- C4: a URL containing a skip substring (`"localhost"`, `"127.0.0.1"`,
`"0.0.0.0"`) yields `{is_valid: true, error_message: "skipped"}` immediately
under every session (including a missing one) and under the async coroutine,
with no network request issued (the result does not depend on the transport);
a URL containing no skip substring is passed through to the HTTP probing
portion in both strategies. -/
theorem skip_policy (s : Option Transport) (t : Transport) (u v : String)
    (hu : shouldSkip u = true) (hv : shouldSkip v = false) :
    check_single_link s u
        = { url := u, is_valid := true, error_message := some "skipped" }
    ∧ check_single_url t u = (u, true, "skipped")
    ∧ check_single_link (some t) v = probeViaHttp t v
    ∧ check_single_url t v = probeViaHttpAsync t v := by
  refine ⟨?_, ?_, ?_, ?_⟩
  · unfold check_single_link checkBody
    simp [hu]
  · unfold check_single_url
    simp [hu]
  · unfold check_single_link checkBody probeViaHttp
    simp only [hv, if_false]
    cases h1 : t.head v with
    | exn m => simp [h1]
    | ok st =>
      simp only [h1]
      cases h2 : (if st == 405 then t.get v else HttpAns.ok st) with
      | exn m => simp [h2]
      | ok sf => simp [h2]
  · unfold check_single_url probeViaHttpAsync
    simp only [hv, if_false]
    cases h1 : t.head v with
    | exn m => simp [h1]
    | ok st =>
      simp only [h1]
      cases h2 : (if st == 405 then t.get v else HttpAns.ok st) with
      | exn m => simp [h2]
      | ok sf => simp [h2]

/-- C4 witness: the skip policy at a concrete skip-listed URL (under a
missing session) and a concrete probed URL. -/
theorem skip_policy_witness :
    check_single_link none "http://localhost:3000"
        = { url := "http://localhost:3000", is_valid := true,
            error_message := some "skipped" }
    ∧ check_single_url errTransport "http://localhost:3000"
        = ("http://localhost:3000", true, "skipped")
    ∧ check_single_link (some errTransport) "https://example.com"
        = probeViaHttp errTransport "https://example.com"
    ∧ check_single_url errTransport "https://example.com"
        = probeViaHttpAsync errTransport "https://example.com" :=
  skip_policy none errTransport "http://localhost:3000" "https://example.com"
    (by decide) (by decide)

theorem runProbes_closed (t : Transport) (url : String)
    (hsk : shouldSkip url = false)
    (hfail : ∀ u, ∃ m, t.head u = HttpAns.exn m) :
    ∀ n, n ≤ failureThreshold →
      runProbes t url n = ⟨n, decide (failureThreshold ≤ n)⟩ := by
  intro n
  induction n with
  | zero => intro _; rfl
  | succ n ih =>
    intro hle
    have hlt : n < failureThreshold := hle
    unfold runProbes
    rw [ih (Nat.le_of_succ_le hle)]
    obtain ⟨m, hm⟩ := hfail url
    unfold probeWithBreaker
    rw [hsk, hm]
    simp [recordFailure, Nat.not_le.mpr hlt]

/-- C5 (spec-modelled): with an always-raising transport and a non-skipped
URL, the breaker is closed after 4 consecutive failed probes and open after
exactly `failureThreshold = 5`; the 6th probe then returns the sentinel
outcome `{is_valid: false, error_message: "circuit breaker open"}`, leaves
the breaker state unchanged (the short-circuit does not increment the
failure counter), and performs no network I/O (its result is independent of
the transport). -/
theorem breaker_trip (t : Transport) (url : String)
    (hsk : shouldSkip url = false)
    (hfail : ∀ u, ∃ m, t.head u = HttpAns.exn m) :
    (runProbes t url failureThreshold).isOpen = true
    ∧ (runProbes t url (failureThreshold - 1)).isOpen = false
    ∧ (probeWithBreaker t (runProbes t url failureThreshold) url).2
        = { url := url, is_valid := false,
            error_message := some "circuit breaker open" }
    ∧ (probeWithBreaker t (runProbes t url failureThreshold) url).1
        = runProbes t url failureThreshold
    ∧ (∀ t2 : Transport,
        probeWithBreaker t2 (runProbes t url failureThreshold) url
          = probeWithBreaker t (runProbes t url failureThreshold) url) := by
  have h5 := runProbes_closed t url hsk hfail failureThreshold (Nat.le_refl _)
  have h4 := runProbes_closed t url hsk hfail (failureThreshold - 1)
    (by decide)
  have hopen : ∀ t2 : Transport,
      probeWithBreaker t2 (runProbes t url failureThreshold) url
        = (runProbes t url failureThreshold,
            { url := url, is_valid := false,
              error_message := some "circuit breaker open" }) := by
    intro t2
    rw [h5]
    unfold probeWithBreaker
    rw [hsk]
    simp
  refine ⟨by rw [h5]; rfl, by rw [h4]; rfl, ?_, ?_, ?_⟩
  · rw [hopen t]
  · rw [hopen t]
  · intro t2
    rw [hopen t2, hopen t]

/-- C5 witness: the breaker trip under the concrete always-raising transport. -/
theorem breaker_trip_witness :
    (runProbes errTransport "https://example.com/a" failureThreshold).isOpen
        = true
    ∧ (runProbes errTransport "https://example.com/a"
        (failureThreshold - 1)).isOpen = false
    ∧ (probeWithBreaker errTransport
        (runProbes errTransport "https://example.com/a" failureThreshold)
        "https://example.com/a").2
        = { url := "https://example.com/a", is_valid := false,
            error_message := some "circuit breaker open" }
    ∧ (probeWithBreaker errTransport
        (runProbes errTransport "https://example.com/a" failureThreshold)
        "https://example.com/a").1
        = runProbes errTransport "https://example.com/a" failureThreshold
    ∧ (∀ t2 : Transport,
        probeWithBreaker t2
          (runProbes errTransport "https://example.com/a" failureThreshold)
          "https://example.com/a"
          = probeWithBreaker errTransport
            (runProbes errTransport "https://example.com/a" failureThreshold)
            "https://example.com/a") :=
  breaker_trip errTransport "https://example.com/a" (by decide)
    (fun _ => ⟨"connection refused", rfl⟩)

/-- C6: under both strategies, a HEAD response with status `s ≠ 405` is
final — the outcome records `s` and is valid exactly when `s < 400`, and the
result does not depend on the GET behaviour; a HEAD response of exactly 405
reissues the request as GET and the outcome records the GET status `c`,
valid exactly when `c < 400`. -/
theorem head_get_fallback (tA tB tC : Transport) (url : String) (s c : Nat)
    (hsk : shouldSkip url = false)
    (hA : tA.head url = HttpAns.ok s) (hA405 : s ≠ 405)
    (hB : tB.head url = HttpAns.ok 405) (hBg : tB.get url = HttpAns.ok c)
    (hsame : tC.head = tA.head) :
    check_single_link (some tA) url
        = { url := url, is_valid := decide (s < 400), status_code := some s }
    ∧ check_single_url tA url
        = (url, decide (s < 400), "status: " ++ toString s)
    ∧ check_single_link (some tB) url
        = { url := url, is_valid := decide (c < 400), status_code := some c }
    ∧ check_single_url tB url
        = (url, decide (c < 400), "status: " ++ toString c)
    ∧ check_single_link (some tC) url = check_single_link (some tA) url := by
  have hs405 : (s == 405) = false := by simpa using hA405
  refine ⟨?_, ?_, ?_, ?_, ?_⟩
  · unfold check_single_link checkBody
    simp [hsk, hA, hs405]
  · unfold check_single_url
    simp [hsk, hA, hs405]
  · unfold check_single_link checkBody
    simp [hsk, hB, hBg]
  · unfold check_single_url
    simp [hsk, hB, hBg]
  · unfold check_single_link checkBody
    simp [hsk, hsame, hA, hs405]

/-- C6 witness: the HEAD/GET policy at concrete transports (200-on-HEAD with
a raising GET; 405-on-HEAD with 200-on-GET; and a GET-divergent twin). -/
theorem head_get_fallback_witness :
    check_single_link (some headOkTransport) "https://example.com/a"
        = { url := "https://example.com/a", is_valid := decide (200 < 400),
            status_code := some 200 }
    ∧ check_single_url headOkTransport "https://example.com/a"
        = ("https://example.com/a", decide (200 < 400),
            "status: " ++ toString 200)
    ∧ check_single_link (some back405Transport) "https://example.com/a"
        = { url := "https://example.com/a", is_valid := decide (200 < 400),
            status_code := some 200 }
    ∧ check_single_url back405Transport "https://example.com/a"
        = ("https://example.com/a", decide (200 < 400),
            "status: " ++ toString 200)
    ∧ check_single_link (some headOkTransport2) "https://example.com/a"
        = check_single_link (some headOkTransport) "https://example.com/a" :=
  head_get_fallback headOkTransport back405Transport headOkTransport2
    "https://example.com/a" 200 200 (by decide) rfl (by decide) rfl rfl rfl

theorem strContains_skipped_self : strContains "skipped" "skipped" = true := by
  decide

theorem strContains_requests_na :
    strContains "requests not available" "skipped" = false := by
  decide

/-- The two strategies classify every URL identically (given the same
transport and an available session). -/
theorem classify_agree (t : Transport) (u : String) :
    classifyAsync (check_single_url t u)
      = classifyResult (check_single_link (some t) u) := by
  unfold check_single_url check_single_link checkBody
  by_cases hs : shouldSkip u = true
  · simp [hs, classifyAsync, classifyResult, errorHasSkipped]
  · simp only [hs, if_false, Bool.false_eq_true]
    cases h1 : t.head u with
    | exn m => simp [h1, classifyAsync, classifyResult, errorHasSkipped]
    | ok st =>
      simp only [h1]
      cases h2 : (if st == 405 then t.get u else HttpAns.ok st) with
      | exn m => simp [h2, classifyAsync, classifyResult, errorHasSkipped]
      | ok sf =>
        simp [h2, classifyAsync, classifyResult, errorHasSkipped,
          statusReason_no_skipped sf]

theorem validOf_map (s : Option Transport) (urls : List String) :
    validOf (urls.map (check_single_link s))
      = urls.filter (fun u => bucketOfUrl s u == Bucket.valid) := by
  unfold validOf bucketOfUrl
  rw [List.filter_map, List.map_map]
  exact List.map_id'' (fun u => check_single_link_url s u) _

theorem skippedOf_map (s : Option Transport) (urls : List String) :
    skippedOf (urls.map (check_single_link s))
      = urls.filter (fun u => bucketOfUrl s u == Bucket.skipped) := by
  unfold skippedOf bucketOfUrl
  rw [List.filter_map, List.map_map]
  exact List.map_id'' (fun u => check_single_link_url s u) _

theorem avalidOf_map (t : Transport) (urls : List String) :
    avalidOf (urls.map (check_single_url t))
      = urls.filter (fun u => bucketOfUrl (some t) u == Bucket.valid) := by
  unfold avalidOf
  rw [List.filter_map, List.map_map]
  refine Eq.trans (List.map_id'' (fun u => check_single_url_fst t u) _) ?_
  exact List.filter_congr (fun u _ => by
    show (classifyAsync (check_single_url t u) == Bucket.valid)
        = (bucketOfUrl (some t) u == Bucket.valid)
    rw [classify_agree]
    rfl)

theorem askippedOf_map (t : Transport) (urls : List String) :
    askippedOf (urls.map (check_single_url t))
      = urls.filter (fun u => bucketOfUrl (some t) u == Bucket.skipped) := by
  unfold askippedOf
  rw [List.filter_map, List.map_map]
  refine Eq.trans (List.map_id'' (fun u => check_single_url_fst t u) _) ?_
  exact List.filter_congr (fun u _ => by
    show (classifyAsync (check_single_url t u) == Bucket.skipped)
        = (bucketOfUrl (some t) u == Bucket.skipped)
    rw [classify_agree]
    rfl)

theorem abrokenOf_map (t : Transport) (urls : List String) :
    abrokenOf (urls.map (check_single_url t))
      = (urls.filter (fun u => bucketOfUrl (some t) u == Bucket.broken)).map
          (fun u => u ++ " (" ++ (check_single_url t u).2.2 ++ ")") := by
  unfold abrokenOf
  rw [List.filter_map, List.map_map]
  refine Eq.trans (List.map_congr_left (fun u _ => ?_))
    (congrArg _ (List.filter_congr (fun u _ => by
    show (classifyAsync (check_single_url t u) == Bucket.broken)
        = (bucketOfUrl (some t) u == Bucket.broken)
    rw [classify_agree]
    rfl)))
  show (check_single_url t u).1 ++ " (" ++ (check_single_url t u).2.2 ++ ")"
      = u ++ " (" ++ (check_single_url t u).2.2 ++ ")"
  rw [check_single_url_fst]

/-- C7 counterexample: on a single URL whose probe raises
`"connection refused"`, the worker-pool strategy stores the bare URL in
`broken` while the async strategy stores the URL suffixed with the error
text, so the two strategies do not produce identical bucket membership. -/
theorem strategy_equivalence_counterexample :
    (check_links_concurrent (some errTransport) ["https://example.com/a"]).broken
        = ["https://example.com/a"]
    ∧ (async_check_links (some errTransport) ["https://example.com/a"]).broken
        = ["https://example.com/a (connection refused)"]
    ∧ check_links_concurrent (some errTransport) ["https://example.com/a"]
        ≠ async_check_links (some errTransport) ["https://example.com/a"] := by
  refine ⟨rfl, rfl, by decide⟩

/-- C7 (amended): with the same transport, an available session and a
duplicate-free input, the two strategies agree URL-by-URL: the `valid` and
`skipped` buckets are identical, and the `broken` buckets hold exactly the
same URLs (those classified broken); but the stored broken strings differ —
the worker pool appends only the `" (status: <code>)"` tag (empty on
transport errors), while the async path appends `" (<reason>)"` carrying the
raw reason text. -/
theorem strategy_equivalence (t : Transport) (urls : List String)
    (hnd : urls.Nodup) :
    (async_check_links (some t) urls).valid
        = (check_links_concurrent (some t) urls).valid
    ∧ (async_check_links (some t) urls).skipped
        = (check_links_concurrent (some t) urls).skipped
    ∧ (check_links_concurrent (some t) urls).broken
        = (urls.filter (fun u => bucketOfUrl (some t) u == Bucket.broken)).map
            (fun u => u ++ statusTag (check_single_link (some t) u).status_code)
    ∧ (async_check_links (some t) urls).broken
        = (urls.filter (fun u => bucketOfUrl (some t) u == Bucket.broken)).map
            (fun u => u ++ " (" ++ (check_single_url t u).2.2 ++ ")") := by
  have hded : urls.dedup = urls := List.dedup_eq_self.mpr hnd
  unfold check_links_concurrent
  rw [hded]
  simp only [async_check_links]
  rw [aggregate_eq, async_aggregate_eq]
  exact ⟨avalidOf_map t urls ▸ (validOf_map (some t) urls).symm ▸ rfl,
    askippedOf_map t urls ▸ (skippedOf_map (some t) urls).symm ▸ rfl,
    by rw [show (Buckets.mk (validOf (urls.map (check_single_link (some t))))
        (brokenOf (urls.map (check_single_link (some t))))
        (skippedOf (urls.map (check_single_link (some t))))).broken
        = brokenOf (urls.map (check_single_link (some t))) from rfl,
      brokenOf_map],
    by rw [show (Buckets.mk (avalidOf (urls.map (check_single_url t)))
        (abrokenOf (urls.map (check_single_url t)))
        (askippedOf (urls.map (check_single_url t)))).broken
        = abrokenOf (urls.map (check_single_url t)) from rfl,
      abrokenOf_map]⟩

/-- C7 witness: the amended strategy agreement at a concrete run mixing a
skip-listed URL and a probed URL. -/
theorem strategy_equivalence_witness :
    (async_check_links (some errTransport)
        ["http://localhost:1", "https://example.com/a"]).valid
        = (check_links_concurrent (some errTransport)
            ["http://localhost:1", "https://example.com/a"]).valid
    ∧ (async_check_links (some errTransport)
        ["http://localhost:1", "https://example.com/a"]).skipped
        = (check_links_concurrent (some errTransport)
            ["http://localhost:1", "https://example.com/a"]).skipped
    ∧ (check_links_concurrent (some errTransport)
        ["http://localhost:1", "https://example.com/a"]).broken
        = ((["http://localhost:1", "https://example.com/a"]).filter
              (fun u => bucketOfUrl (some errTransport) u == Bucket.broken)).map
            (fun u => u ++ statusTag
              (check_single_link (some errTransport) u).status_code)
    ∧ (async_check_links (some errTransport)
        ["http://localhost:1", "https://example.com/a"]).broken
        = ((["http://localhost:1", "https://example.com/a"]).filter
              (fun u => bucketOfUrl (some errTransport) u == Bucket.broken)).map
            (fun u => u ++ " (" ++ (check_single_url errTransport u).2.2 ++ ")") :=
  strategy_equivalence errTransport
    ["http://localhost:1", "https://example.com/a"] (by decide)

/-- C8 counterexample: the async entry point does not deduplicate — the
duplicated skip-listed URL is bucketed once per occurrence, so the output on
the duplicated input differs from the output on the deduplicated input. -/
theorem dedup_counterexample :
    (async_check_links (some errTransport)
        ["http://localhost:9999/y", "http://localhost:9999/y"]).skipped
      = ["http://localhost:9999/y", "http://localhost:9999/y"]
    ∧ async_check_links (some errTransport)
        ["http://localhost:9999/y", "http://localhost:9999/y"]
      ≠ async_check_links (some errTransport)
        (["http://localhost:9999/y", "http://localhost:9999/y"].dedup) := by
  refine ⟨rfl, by decide⟩

/-- C8 (amended): only the worker-pool strategy deduplicates before
dispatch: its output on any input equals its output on the deduplicated
input (each distinct URL is probed once).  The async strategy creates one
task per input occurrence and buckets each occurrence separately, so its
bucket sizes sum to the raw input length. -/
theorem dedup_before_dispatch (s : Option Transport) (t : Transport)
    (links urls : List String) :
    check_links_concurrent s links = check_links_concurrent s links.dedup
    ∧ ((async_check_links (some t) urls).valid.length
        + (async_check_links (some t) urls).broken.length
        + (async_check_links (some t) urls).skipped.length = urls.length) := by
  constructor
  · unfold check_links_concurrent
    rw [List.dedup_idem]
  · simp only [async_check_links]
    rw [async_aggregate_eq]
    simpa using lengths_of_async_aggregate (urls.map (check_single_url t))

theorem bucketOfUrl_none (u : String) :
    bucketOfUrl none u
      = (if shouldSkip u then Bucket.skipped else Bucket.broken) := by
  unfold bucketOfUrl check_single_link checkBody
  by_cases h : shouldSkip u = true
  · simp [h, classifyResult, errorHasSkipped, strContains_skipped_self]
  · simp [h, classifyResult, errorHasSkipped, strContains_requests_na]

/-- C9: when the HTTP session is unavailable, the two entry points diverge —
`async_check_links` buckets every input URL (skip-listed ones and duplicates
included) as broken with the `" (requests not available)"` suffix without
consulting the skip list, whereas the worker-pool path still applies the
skip check first: skip-listed URLs are bucketed skipped and only the rest
become broken, stored as the bare URL, with the probe outcome carrying
`error_message = "requests not available"`. -/
theorem session_unavailable_divergence (urls links : List String)
    (u : String) (hns : shouldSkip u = false) :
    async_check_links none urls
        = { valid := [],
            broken := urls.map (fun w => w ++ " (requests not available)"),
            skipped := [] }
    ∧ (check_links_concurrent none links).valid = []
    ∧ (check_links_concurrent none links).skipped
        = links.dedup.filter (fun w => shouldSkip w)
    ∧ (check_links_concurrent none links).broken
        = links.dedup.filter (fun w => !shouldSkip w)
    ∧ check_single_link none u
        = { url := u, is_valid := false,
            error_message := some "requests not available" } := by
  refine ⟨rfl, ?_, ?_, ?_, ?_⟩
  · unfold check_links_concurrent
    rw [aggregate_eq]
    show validOf (links.dedup.map (check_single_link none)) = []
    rw [validOf_map]
    refine List.filter_eq_nil_iff.mpr (fun w _ => ?_)
    rw [bucketOfUrl_none]
    by_cases h : shouldSkip w = true <;> simp [h]
  · unfold check_links_concurrent
    rw [aggregate_eq]
    show skippedOf (links.dedup.map (check_single_link none))
        = links.dedup.filter (fun w => shouldSkip w)
    rw [skippedOf_map]
    refine List.filter_congr (fun w _ => ?_)
    rw [bucketOfUrl_none]
    by_cases h : shouldSkip w = true <;> simp [h]
  · unfold check_links_concurrent
    rw [aggregate_eq]
    show brokenOf (links.dedup.map (check_single_link none))
        = links.dedup.filter (fun w => !shouldSkip w)
    rw [brokenOf_map]
    have hfc : links.dedup.filter (fun w => bucketOfUrl none w == Bucket.broken)
        = links.dedup.filter (fun w => !shouldSkip w) := by
      refine List.filter_congr (fun w _ => ?_)
      rw [bucketOfUrl_none]
      by_cases h : shouldSkip w = true <;> simp [h]
    rw [hfc]
    refine List.map_id'' (fun w => ?_) _
    have hsc : (check_single_link none w).status_code = none := by
      unfold check_single_link checkBody
      by_cases h : shouldSkip w = true <;> simp [h]
    rw [hsc]
    exact String.append_empty w
  · unfold check_single_link checkBody
    simp [hns]

/-- C9 witness: the divergence at a concrete skip-free URL. -/
theorem session_unavailable_divergence_witness :
    async_check_links none ["http://localhost:7", "http://localhost:7"]
        = { valid := [],
            broken := ["http://localhost:7", "http://localhost:7"].map
              (fun w => w ++ " (requests not available)"),
            skipped := [] }
    ∧ (check_links_concurrent none
        ["http://localhost:7", "https://example.com/b"]).valid = []
    ∧ (check_links_concurrent none
        ["http://localhost:7", "https://example.com/b"]).skipped
        = (["http://localhost:7", "https://example.com/b"].dedup).filter
            (fun w => shouldSkip w)
    ∧ (check_links_concurrent none
        ["http://localhost:7", "https://example.com/b"]).broken
        = (["http://localhost:7", "https://example.com/b"].dedup).filter
            (fun w => !shouldSkip w)
    ∧ check_single_link none "https://example.com/b"
        = { url := "https://example.com/b", is_valid := false,
            error_message := some "requests not available" } :=
  session_unavailable_divergence ["http://localhost:7", "http://localhost:7"]
    ["http://localhost:7", "https://example.com/b"] "https://example.com/b"
    (by decide)

theorem sem_invariant (N M : Nat) (s : SemState)
    (h : Relation.ReflTransGen SemStep (semInit N M) s) :
    s.permits + s.inflight = N := by
  induction h with
  | refl => rfl
  | tail h1 h2 ih =>
    cases h2 with
    | acquire hp hs => simp only [] at ih ⊢; omega
    | release h => simp only [] at ih ⊢; omega

theorem pool_invariant (N M : Nat) (p : PoolState)
    (h : Relation.ReflTransGen PoolStep (poolInit N M) p) :
    p.idleWorkers + p.running = N := by
  induction h with
  | refl => rfl
  | tail h1 h2 ih =>
    cases h2 with
    | start hp hw => simp only [] at ih ⊢; omega
    | finish h => simp only [] at ih ⊢; omega

/-- C10: under both schedulers, in every state reachable from the initial
state with concurrency ceiling `N` and `M` pending URLs, the number of
simultaneously in-flight probes never exceeds `N`: the async strategy
because a probe holds one of the `N` semaphore permits for its whole
duration, the worker-pool strategy because a probe occupies one of the `N`
workers. -/
theorem concurrency_ceiling (N M : Nat) (s : SemState) (p : PoolState)
    (hs : Relation.ReflTransGen SemStep (semInit N M) s)
    (hp : Relation.ReflTransGen PoolStep (poolInit N M) p) :
    s.inflight ≤ N ∧ p.running ≤ N := by
  have h1 := sem_invariant N M s hs
  have h2 := pool_invariant N M p hp
  omega

/-- C10 witness: with ceiling 1 and 2 pending URLs, the state reached after
one task starts respects the bound in both schedulers. -/
theorem concurrency_ceiling_witness :
    (⟨0, 1, 1, 0⟩ : SemState).inflight ≤ 1
    ∧ (⟨0, 1, 1, 0⟩ : PoolState).running ≤ 1 :=
  concurrency_ceiling 1 2 ⟨0, 1, 1, 0⟩ ⟨0, 1, 1, 0⟩
    (Relation.ReflTransGen.single
      (SemStep.acquire (semInit 1 2) (by decide) (by decide)))
    (Relation.ReflTransGen.single
      (PoolStep.start (poolInit 1 2) (by decide) (by decide)))
